import Mathlib

/-!
Verification development for the forecasting core of `foressment_lib`
(`foressment_ai/forecasting/forecaster_ai/forecaster.py`).

The windowing engine (`TSGenerator`), the naive forecaster and the
evaluation engine are embedded shallowly:

* a `(T, F)` numpy sequence becomes a `List α` of rows (a rank-1
  sequence reshaped to `(T, 1)` is a `List α` as well, one scalar row);
* a `(N, L, F)` window tensor becomes a `List (List α)` of windows;
* numpy's `as_strided` views are materialised as `take`/`drop` slices,
  which is exactly the set of elements the strided view exposes;
* `np.empty` buffers start out holding arbitrary values; the functions
  that can leak those values (`TSGenerator._flatten`) take an explicit
  `g : Nat → α` parameter supplying the value at each never-written
  index, so theorems can quantify over every possible initial content;
* Python `assert` failures become `Except.error` with the message text.
-/

section Windowing

variable {α : Type} [Inhabited α]

/-- Embedding of `TSGenerator._temporality` (forecaster.py:264-291).
Checks `look_back_length in range(0, T)` and
`horizon in range(0, T - look_back_length + 1)`, then builds the strided
views `data[i] = x[i : i+L]` (shape `(N, L, F)`) and
`targets[i] = x[L+i : L+i+H]` (shape `(N, H, F)`) with
`N = T - L - H + 1`. -/
def temporality (L H : Nat) (x : List α) :
    Except String (List (List α) × List (List α)) :=
  if L < x.length then
    if H < x.length - L + 1 then
      let N := x.length - L - H + 1
      .ok ((List.range N).map (fun i => (x.drop i).take L),
           (List.range N).map (fun i => (x.drop (L + i)).take H))
    else .error ("Horizon must be between 0 and " ++ toString (x.length - L + 1))
  else .error ("Look back length must be between 0 and " ++ toString x.length)

/-- Embedding of `TSGenerator._flatten` (forecaster.py:369-387).
The result buffer is created with `np.empty((N + L - 1, F))`; `g i` is
the arbitrary initial content of row `i` of that buffer.  The first
loop writes rows `0 .. N-2` with `x[i, 0, :]`; the second loop writes
rows `N-1 .. L-1` (empty when `L ≤ N-1`) with `x[N-1, i, :]`; all other
rows keep their initial content `g i`. -/
def flattenG (g : Nat → α) (x : List (List α)) : List α :=
  let N := x.length
  let L := x.headI.length
  (List.range (N + L - 1)).map (fun i =>
    if i < N - 1 then (x.getD i []).headI
    else if i < L then (x.getD (N - 1) []).getD i default
    else g i)

/-- Python indexing `x[i]` for an `Int` index: a negative index counts
from the end of the list. -/
def pyGet (x : List (List α)) (i : Int) : List α :=
  if i < 0 then x.getD ((x.length : Int) + i).toNat []
  else x.getD i.toNat []

/-- Embedding of the `window_id` branch of `TSGenerator._get_x`
(forecaster.py:341-346): the index must lie in
`range(-(N - 1), N - 1)`; the selected window is returned wrapped in a
leading size-1 axis. -/
def get_window (x : List (List α)) (wid : Int) :
    Except String (List (List α)) :=
  if -((x.length : Int) - 1) ≤ wid ∧ wid < (x.length : Int) - 1 then
    .ok [pyGet x wid]
  else .error "window_id out of range"

/-- Normalisation of one endpoint of a Python slice `x[a:b]` for a list
of length `n`: negative endpoints count from the end and everything is
clamped to `[0, n]`. -/
def pyNormIdx (n : Nat) (i : Int) : Nat :=
  if i < 0 then ((n : Int) + i).toNat else min i.toNat n

/-- Python slice `x[a:b]` with step 1. -/
def pySlice (x : List (List α)) (a b : Int) : List (List α) :=
  (x.take (pyNormIdx x.length b)).drop (pyNormIdx x.length a)

/-- Python truthiness test used on the endpoints of `sample`: a missing
endpoint (`None`) and the integer `0` are both falsy, so both select
the default. -/
def truthyD (v : Option Int) (d : Int) : Int :=
  match v with
  | none => d
  | some z => if z ≠ 0 then z else d

/-- Embedding of the `sample` branch of `TSGenerator._get_x`
(forecaster.py:347-357): `sample = (start, end)`; a falsy `start`
defaults to `0`, a falsy `end` defaults to `N`; the result is the
Python slice `x[start:end]`. -/
def get_sample (x : List (List α)) (s e : Option Int) : List (List α) :=
  pySlice x (truthyD s 0) (truthyD e (x.length : Int))

/-- Embedding of `TSGenerator.change_horizon` (forecaster.py:251-262)
for a generator whose current windows are `data` and `targets` and
whose look-back length is `L`.  The method flattens the current inputs
(`get_data(flatten=True)`), flattens the last target window
(`get_targets(window_id=-1, flatten=True)`), appends the two along the
time axis and re-runs `_temporality` with the new horizon.  `g` is the
arbitrary initial content of the `np.empty` buffers used by
`_flatten`. -/
def change_horizon (g : Nat → α) (L newH : Nat)
    (data targets : List (List α)) :
    Except String (List (List α) × List (List α)) :=
  match get_window targets (-1) with
  | .error e => .error e
  | .ok lastT => temporality L newH (flattenG g data ++ flattenG g lastT)

end Windowing

section Forecasting

variable {α : Type} [Inhabited α]

/-- Embedding of `NaiveForecaster._predict` (forecaster.py:405-432):
for every input window the prediction is `horizon` repetitions of the
last timestep of that window. -/
def naive_predict (H : Nat) (data : List (List α)) : List (List α) :=
  data.map (fun w => List.replicate H (w.getLastD default))

/-- The `while predictions.shape[1] < forecasting_data_length` loop of
`NaiveForecaster.forecasting` (forecaster.py:469-474), with explicit
fuel.  Each iteration predicts from the current batch, appends the
prediction to the accumulated predictions along the time axis and
rolls the batch forward by dropping its oldest `horizon` steps and
appending the fresh prediction. -/
def multiStep (H len : Nat) : Nat → List (List α) → List (List α) → List (List α)
  | 0, _, preds => preds
  | fuel + 1, batch, preds =>
    if preds.headI.length < len then
      let cur := naive_predict H batch
      multiStep H len fuel
        ((batch.zip cur).map (fun bc => bc.1.drop H ++ bc.2))
        ((preds.zip cur).map (fun pc => pc.1 ++ pc.2))
    else preds

/-- Embedding of `NaiveForecaster.forecasting` (forecaster.py:434-476)
for a batch already normalised to rank 3 (`data` is the list of input
windows).  A falsy requested length (`0`, like Python `None`) defaults
to the horizon.  When the requested length is below the horizon the
code executes `predictions[i] = predictions[i][:length]`, an in-place
numpy row assignment: it broadcasts when `length == 1` (leaving the
array with `horizon` steps) and raises a broadcast `ValueError` when
`1 < length < horizon`; the array is never shortened.  When the
requested length exceeds the horizon the iterative loop runs and the
result is truncated with `predictions[:, :length, :]`. -/
def forecasting (lookBack H : Nat) (data : List (List α)) (length0 : Nat) :
    Except String (List (List α)) :=
  let len := if length0 = 0 then H else length0
  if data.all (fun w => w.length == lookBack) then
    if len ≤ H then
      let preds := naive_predict H data
      if len < H then
        if len = 1 then .ok (preds.map (fun p => List.replicate H p.headI))
        else .error "could not broadcast input array"
      else .ok preds
    else .ok ((multiStep H len len data (data.map (fun _ => ([] : List α)))).map
      (fun p => p.take len))
  else .error "Data length must be equal to look_back_length"

end Forecasting

section Parameters

/-- A Python value as far as `ForecasterParameters.__setattr__` can
distinguish it: an `int`, or a value of any other type. -/
inductive PyVal where
  | int (z : Int)
  | float (q : Rat)
  | str (s : String)
  | pynone
deriving DecidableEq

/-- The three validated fields of `ForecasterParameters`
(forecaster.py:21-59).  The Python class stores whatever integers are
assigned; there is no range validation. -/
structure ForecasterParameters where
  n_features : Int
  look_back_length : Int
  horizon : Int
deriving DecidableEq

/-- Embedding of `ForecasterParameters.__setattr__`
(forecaster.py:56-59): the attribute name must be one of the three
fields and the value must be a Python `int`; any `int`, including zero
and negative values, is stored unchanged. -/
def fp_setattr (p : ForecasterParameters) (name : String) (v : PyVal) :
    Except String ForecasterParameters :=
  if name = "n_features" ∨ name = "look_back_length" ∨ name = "horizon" then
    match v with
    | .int z =>
      .ok (if name = "n_features" then { p with n_features := z }
           else if name = "look_back_length" then { p with look_back_length := z }
           else { p with horizon := z })
    | _ => .error ("Attribute " ++ name ++ " must be an integer")
  else .error ("Invalid attribute " ++ name)

end Parameters

section Estimation

/-- Exact representation of one cell of the quality table.  MSE, MAE
and coefficient-of-determination cells are rationals; an RMSE cell is
the (irrational in general) square root of a rational, and the
aggregate RMSE cell is the mean of the per-feature square roots, so
those are kept symbolic. -/
inductive MetricVal where
  | q (x : Rat)
  | sqrtq (x : Rat)
  | meanOf (xs : List (Rat × Bool))

/-- Arithmetic mean of a list of rationals (`np.average`). -/
def qmean (l : List Rat) : Rat := l.sum / l.length

/-- Column `k` of a 2D matrix stored as a list of rows. -/
def colOf (k : Nat) (m : List (List Rat)) : List Rat :=
  m.map (fun r => r.getD k 0)

/-- Split a flat list into consecutive rows of `cols` entries
(numpy `reshape(rows, cols)` on a C-contiguous buffer). -/
def chunkRows (cols : Nat) (l : List Rat) : List (List Rat) :=
  if h : cols = 0 ∨ l = [] then []
  else
    have : l.length - cols < l.length := by
      rcases not_or.mp h with ⟨h1, h2⟩
      have hc : 0 < cols := Nat.pos_of_ne_zero h1
      have hl : 0 < l.length := List.length_pos.mpr h2
      omega
    l.take cols :: chunkRows cols (l.drop cols)
termination_by l.length
decreasing_by simpa using this

/-- Embedding of `pred_vals.reshape((B*H, F))` with the dimensions of
the true tensor (forecaster.py:1182): numpy reshape succeeds exactly
when the total number of scalars matches, and then reads the buffer in
C order. -/
def reshapeRows (rows cols : Nat) (p : List (List (List Rat))) :
    Option (List (List Rat)) :=
  if ((p.map List.flatten).flatten).length = rows * cols then
    some (chunkRows cols ((p.map List.flatten).flatten))
  else none

/-- Per-feature mean squared errors
(`mean_squared_error(..., multioutput='raw_values')`). -/
def mseRaw (F : Nat) (tR pR : List (List Rat)) : List Rat :=
  (List.range F).map (fun k =>
    qmean (((colOf k tR).zip (colOf k pR)).map (fun ab => (ab.1 - ab.2) ^ 2)))

/-- Per-feature mean absolute errors. -/
def maeRaw (F : Nat) (tR pR : List (List Rat)) : List Rat :=
  (List.range F).map (fun k =>
    qmean (((colOf k tR).zip (colOf k pR)).map (fun ab => |ab.1 - ab.2|)))

/-- Per-feature coefficients of determination, with sklearn's
conventions for a constant true column: score 1 when the residual sum
is also zero, otherwise score 0. -/
def r2Raw (F : Nat) (tR pR : List (List Rat)) : List Rat :=
  (List.range F).map (fun k =>
    let tc := colOf k tR
    let pc := colOf k pR
    let ssRes := ((tc.zip pc).map (fun ab => (ab.1 - ab.2) ^ 2)).sum
    let mu := qmean tc
    let ssTot := (tc.map (fun a => (a - mu) ^ 2)).sum
    if ssTot ≠ 0 then 1 - ssRes / ssTot
    else if ssRes ≠ 0 then 0 else 1)

/-- The four quality-table columns one model contributes in `features`
mode (forecaster.py:1184-1198): per-feature values followed by the
aggregate `ALL_FEATURES` value, for MSE, RMSE, MAE and R2 in that
order.  sklearn's `root_mean_squared_error` takes the square root of
each raw MSE and aggregates by averaging those roots. -/
def modelColumns (name : String) (F : Nat) (tR pR : List (List Rat)) :
    List (String × List MetricVal) :=
  let mse := mseRaw F tR pR
  let mae := maeRaw F tR pR
  let r2 := r2Raw F tR pR
  [ (name ++ "_MSE", mse.map .q ++ [.q (qmean mse)]),
    (name ++ "_RMSE", mse.map .sqrtq ++ [.meanOf (mse.map (fun x => (x, true)))]),
    (name ++ "_MAE", mae.map .q ++ [.q (qmean mae)]),
    (name ++ "_R2", r2.map .q ++ [.q (qmean r2)]) ]

/-- Loop body of `ForecastEstimator.estimate` in `features` mode
(forecaster.py:1179-1198): the registered models are visited in
registration order; for each one the batch count is asserted equal to
the true batch count *before that model's metrics are computed*, the
prediction is reshaped with the true tensor's dimensions, and the four
metric columns are appended to the quality table.  The returned pair is
the quality table built so far together with the error, if any, that
aborted the loop. -/
def estimateGo (B hT fT : Nat) (tR : List (List Rat)) :
    List (String × List (List (List Rat))) →
    List (String × List MetricVal) × Option String
  | [] => ([], none)
  | (name, p) :: rest =>
    if B = p.length then
      match reshapeRows (B * hT) fT p with
      | none => ([], some "cannot reshape array")
      | some pR =>
        let r := estimateGo B hT fT tR rest
        (modelColumns name fT tR pR ++ r.1, r.2)
    else ([], some ("The length of" ++ name ++ " result not equal to true values"))

/-- Embedding of `ForecastEstimator.estimate(how='features')`
(forecaster.py:1170-1199) with true values `t` (a `(B, H, F)` tensor)
and the registered predictions `preds` in registration order. -/
def estimate_features (t : List (List (List Rat)))
    (preds : List (String × List (List (List Rat)))) :
    List (String × List MetricVal) × Option String :=
  estimateGo t.length t.headI.length t.headI.headI.length
    (chunkRows t.headI.headI.length ((t.map List.flatten).flatten)) preds

/-- A `(B, H, F)` tensor: `B` windows, each with `H` rows of `F`
features. -/
def WellShaped (B H F : Nat) (t : List (List (List Rat))) : Prop :=
  t.length = B ∧ ∀ w ∈ t, w.length = H ∧ ∀ r ∈ w, r.length = F

instance (B H F : Nat) (t : List (List (List Rat))) :
    Decidable (WellShaped B H F t) := by
  unfold WellShaped; infer_instance

end Estimation


section Claims

/-- Reading window `i` out of a strided window list built with
`List.range`. -/
theorem getD_range_map {β : Type} (f : Nat → β) (n i : Nat) (dflt : β)
    (h : i < n) : ((List.range n).map f).getD i dflt = f i := by
  simp [List.getD_eq_getElem?_getD, List.getElem?_map, List.getElem?_range, h]

/-- C1: for every sequence and every look-back length `L` and horizon
`H` accepted by `TSGenerator._temporality`, the generator holds exactly
`N = T - L - H + 1` input windows and `N` target windows; input window
`i` has length `L` with `inputs[i][j] = sequence[i + j]`, and target
window `i` has length `H` with `targets[i][j] = sequence[i + L + j]`:
the target window is exactly the `H` observations immediately following
input window `i`, with no gap and no overlap error. -/
theorem c1_window_alignment (x : List ℚ) (L H : Nat)
    (d t : List (List ℚ)) (h : temporality L H x = .ok (d, t)) :
    d.length = x.length - L - H + 1 ∧
    t.length = x.length - L - H + 1 ∧
    ∀ i, i < x.length - L - H + 1 →
      (d.getD i []).length = L ∧ (t.getD i []).length = H ∧
      (∀ j, j < L → (d.getD i []).getD j 0 = x.getD (i + j) 0) ∧
      (∀ j, j < H → (t.getD i []).getD j 0 = x.getD (i + L + j) 0) := by
  unfold temporality at h
  split_ifs at h with h1 h2
  simp only [Except.ok.injEq, Prod.mk.injEq] at h
  obtain ⟨hd, ht⟩ := h
  subst hd ht
  refine ⟨by simp, by simp, ?_⟩
  intro i hi
  have hH : H ≤ x.length - L := by omega
  have hiL : i + L + H ≤ x.length := by omega
  rw [getD_range_map _ _ _ _ hi, getD_range_map _ _ _ _ hi]
  refine ⟨?_, ?_, ?_, ?_⟩
  · simp only [List.length_take, List.length_drop]; omega
  · simp only [List.length_take, List.length_drop]; omega
  · intro j hj
    rw [List.getD_eq_getElem?_getD, List.getElem?_take, if_pos hj,
      List.getElem?_drop, ← List.getD_eq_getElem?_getD]
  · intro j hj
    rw [List.getD_eq_getElem?_getD, List.getElem?_take, if_pos hj,
      List.getElem?_drop, ← List.getD_eq_getElem?_getD,
      show L + i + j = i + L + j from by omega]

/-- Concrete instance of `c1_window_alignment`: the sequence
`[10, 20, 30, 40]` with `L = 2`, `H = 1` yields windows
`[[10,20],[20,30]]` and targets `[[30],[40]]`; window `0`, step `1` is
`sequence[0 + 1]` and target `0`, step `0` is `sequence[0 + 2]`. -/
theorem c1_window_alignment_witness :
    (([[(10:ℚ),20],[20,30]] : List (List ℚ)).getD 0 []).getD 1 0
      = ([(10:ℚ),20,30,40] : List ℚ).getD (0 + 1) 0 ∧
    (([[(30:ℚ)],[40]] : List (List ℚ)).getD 0 []).getD 0 0
      = ([(10:ℚ),20,30,40] : List ℚ).getD (0 + 2 + 0) 0 :=
  ⟨((c1_window_alignment [10,20,30,40] 2 1 [[10,20],[20,30]] [[30],[40]]
      rfl).2.2 0 (by norm_num)).2.2.1 1 (by norm_num),
   ((c1_window_alignment [10,20,30,40] 2 1 [[10,20],[20,30]] [[30],[40]]
      rfl).2.2 0 (by norm_num)).2.2.2 0 (by norm_num)⟩

/-- C2 fails on the code: from the sequence `S = [0,1,2,3,4]` with
`L = 3`, `H = 1` (two stride-1 windows `[[0,1,2],[1,2,3]]`),
`_flatten` writes entry `1` as `x[1, 1] = 2` — the claim requires
`S[1] = 1` — and leaves entry `3` holding the uninitialised buffer
content `g 3` (the claim requires `S[3] = 3`), for every possible
buffer content `g`.  The second loop of `_flatten` conflates the flat
output index with the within-window index, which is only harmless when
there is a single window. -/
theorem c2_flatten_bug : ∀ g : Nat → ℚ,
    temporality 3 1 [(0:ℚ), 1, 2, 3, 4] = .ok ([[0,1,2],[1,2,3]], [[3],[4]]) ∧
    flattenG g [[(0:ℚ),1,2],[1,2,3]] = [0, 2, 3, g 3] ∧
    (flattenG g [[(0:ℚ),1,2],[1,2,3]]).getD 1 0 = 2 :=
  fun _ => ⟨rfl, rfl, rfl⟩

/-- C3 fails on the code: with `L = 2`, `H = 3` and the single input
window `[1, 2]`, requesting `length = 2` raises a numpy broadcast
error (the in-place row assignment
`predictions[i] = predictions[i][:2]` cannot shorten a `(3, F)` row),
and requesting `length = 1` returns `3` steps, not `1` (the assignment
broadcasts and the unshortened `(B, 3, F)` array is returned).  The
iterative branch does return exactly `length` steps (`length = 7`
shown). -/
theorem c3_forecast_length_bug :
    forecasting 2 3 [[(1:ℚ), 2]] 2 = .error "could not broadcast input array" ∧
    forecasting 2 3 [[(1:ℚ), 2]] 1 = .ok [[2, 2, 2]] ∧
    forecasting 2 3 [[(1:ℚ), 2]] 7 = .ok [[2, 2, 2, 2, 2, 2, 2]] :=
  ⟨rfl, rfl, rfl⟩

/-- C4 is wrong about the accepted bounds: `_temporality` accepts
`horizon = 0` and `look_back_length = 0` (its checks are
`L in range(0, T)` and `H in range(0, T - L + 1)`), although the claim
requires both to be at least `1`; and constructing with
`L + H - 1 = T` (here `T = 3`, `L = H = 2`) fails with the range
error, although the claim says it succeeds with one window. -/
theorem c4_range_counterexample :
    temporality 1 0 [(5:ℚ), 7] = .ok ([[5],[7]], [[],[]]) ∧
    temporality 0 1 [(5:ℚ), 7] = .ok ([[],[]], [[5],[7]]) ∧
    temporality 2 2 [(1:ℚ), 2, 3] = .error "Horizon must be between 0 and 2" :=
  ⟨rfl, rfl, rfl⟩

/-- C4 amended: construction succeeds exactly when
`look_back_length ∈ [0, T-1]` and `horizon ∈ [0, T-L]` (lower bounds
`0`, not `1`); the number of windows is always `T - L - H + 1`, so
`L + H = T` (with `H ≥ 1`) succeeds and yields exactly one window,
while `L + H - 1 ≥ T` (equivalently `L + H > T`) fails with the range
error. -/
theorem c4_range_amended (x : List ℚ) (L H : Nat) :
    ((∃ d t, temporality L H x = .ok (d, t)) ↔
      L < x.length ∧ H ≤ x.length - L) ∧
    (∀ d t, temporality L H x = .ok (d, t) →
      d.length = x.length - L - H + 1) ∧
    (1 ≤ H → L + H = x.length → ∀ d t, temporality L H x = .ok (d, t) →
      d.length = 1) ∧
    (x.length < L + H → ∃ e, temporality L H x = .error e) := by
  unfold temporality
  split_ifs with h1 h2
  · refine ⟨⟨fun _ => ⟨h1, by omega⟩, fun _ => ⟨_, _, rfl⟩⟩, ?_, ?_, ?_⟩
    · intro d t h
      simp only [Except.ok.injEq, Prod.mk.injEq] at h
      rw [← h.1]
      simp
    · intro hH hT d t h
      simp only [Except.ok.injEq, Prod.mk.injEq] at h
      rw [← h.1]
      simp only [List.length_map, List.length_range]
      omega
    · intro hlt
      exact absurd hlt (by omega)
  · refine ⟨⟨fun ⟨d, t, h⟩ => by simp at h, fun hc => absurd hc.2 (by omega)⟩,
      ?_, ?_, ?_⟩
    · intro d t h; simp at h
    · intro _ _ d t h; simp at h
    · intro _; exact ⟨_, rfl⟩
  · refine ⟨⟨fun ⟨d, t, h⟩ => by simp at h, fun hc => absurd hc.1 h1⟩,
      ?_, ?_, ?_⟩
    · intro d t h; simp at h
    · intro _ _ d t h; simp at h
    · intro _; exact ⟨_, rfl⟩

/-- Concrete instance of `c4_range_amended`: on a sequence of length
`3`, `L = 1, H = 2` (so `L + H = T`) is accepted, and `L = 2, H = 2`
(so `L + H - 1 = T`) is rejected. -/
theorem c4_range_amended_witness :
    (∃ d t, temporality 1 2 [(1:ℚ), 2, 3] = .ok (d, t)) ∧
    (∃ e, temporality 2 2 [(1:ℚ), 2, 3] = .error e) :=
  ⟨(c4_range_amended [1, 2, 3] 1 2).1.mpr (by norm_num),
   (c4_range_amended [1, 2, 3] 2 2).2.2.2 (by norm_num)⟩

/-- C5: every predicted timestep of `NaiveForecaster._predict` equals
the last timestep of the corresponding input window:
`prediction[b][j] = input[b][L-1]` for every window `b` and every
`j < H`, and every prediction has exactly `H` steps. -/
theorem c5_persistence {α : Type} [Inhabited α] (H L : Nat)
    (data : List (List α)) (_hL : 1 ≤ L) (hw : ∀ w ∈ data, w.length = L) :
    (naive_predict H data).length = data.length ∧
    ∀ b, b < data.length →
      ((naive_predict H data).getD b []).length = H ∧
      ∀ j, j < H →
        ((naive_predict H data).getD b []).getD j default
          = (data.getD b []).getD (L - 1) default := by
  refine ⟨by simp [naive_predict], ?_⟩
  intro b hb
  have hwb : data[b]? = some data[b] := List.getElem?_eq_getElem hb
  have hwlen : data[b].length = L := hw _ (List.getElem_mem hb)
  have hpred : (naive_predict H data).getD b []
      = List.replicate H (data[b].getLastD default) := by
    simp [naive_predict, List.getD_eq_getElem?_getD, List.getElem?_map, hwb]
  have hdata : data.getD b [] = data[b] := by
    simp [List.getD_eq_getElem?_getD, hwb]
  refine ⟨by rw [hpred]; simp, ?_⟩
  intro j hj
  rw [hpred, hdata, List.getD_eq_getElem?_getD, List.getElem?_replicate,
    if_pos hj, List.getLastD_eq_getLast?, List.getLast?_eq_getElem?,
    hwlen, ← List.getD_eq_getElem?_getD]
  rfl

/-- Concrete instance of `c5_persistence`: with `L = 2`, `H = 2` and
windows `[[1,5],[7,9]]`, prediction `0`, step `1` equals the last
timestep of window `0`. -/
theorem c5_persistence_witness :
    (naive_predict 2 [[(1:ℚ), 5], [7, 9]]).length = 2 ∧
    ((naive_predict 2 [[(1:ℚ), 5], [7, 9]]).getD 0 []).getD 1 default
      = ([(1:ℚ), 5] : List ℚ).getD (2 - 1) default := by
  have h := c5_persistence 2 2 [[(1:ℚ), 5], [7, 9]] (by norm_num)
    (by intro w hw; fin_cases hw <;> rfl)
  exact ⟨h.1, (h.2 0 (by norm_num)).2 1 (by norm_num)⟩

/-- C6 fails on the code: on the sequence `[0,1,2,3,4]` with `L = 3`,
`H = 1`, a first `change_horizon(1)` rebuilds the windows from the
corrupted flattened sequence `[0,2,3,g 3,4]` (not the original, so the
reconstruction part of the claim already fails), and an immediately
repeated `change_horizon(1)` produces data windows whose first window
is `[0,3,g 3]`, different from `[0,2,3]` after the single call at the
deterministic entry `1` (value `3` versus `2`), for all possible
uninitialised-buffer contents `g`, `g2` of the two calls. -/
theorem c6_change_horizon_bug : ∀ g g2 : Nat → ℚ,
    temporality 3 1 [(0:ℚ),1,2,3,4] = .ok ([[0,1,2],[1,2,3]], [[3],[4]]) ∧
    change_horizon g 3 1 [[(0:ℚ),1,2],[1,2,3]] [[3],[4]]
      = .ok ([[0,2,3],[2,3,g 3]], [[g 3],[4]]) ∧
    change_horizon g2 3 1 [[(0:ℚ),2,3],[2,3,g 3]] [[g 3],[4]]
      = .ok ([[0,3,g 3],[3,g 3,g2 3]], [[g2 3],[4]]) ∧
    ([[(0:ℚ),2,3],[2,3,g 3]].getD 0 []).getD 1 0 = 2 ∧
    ([[(0:ℚ),3,g 3],[3,g 3,g2 3]].getD 0 []).getD 1 0 = 3 :=
  fun _ _ => ⟨rfl, rfl, rfl, rfl, rfl⟩

/-- C7 fails on the code: `ForecasterParameters.__setattr__` validates
only the attribute name and `isinstance(val, int)`; out-of-range
integers (here `horizon = 0` and `n_features = -3`) are stored without
any error. -/
theorem c7_setattr_counterexample :
    fp_setattr ⟨1, 10, 1⟩ "horizon" (.int 0) = .ok ⟨1, 10, 0⟩ ∧
    fp_setattr ⟨1, 10, 1⟩ "n_features" (.int (-3)) = .ok ⟨-3, 10, 1⟩ :=
  ⟨rfl, rfl⟩

/-- C7 amended: assignment on a `ForecasterParameters` object succeeds
exactly when the name is one of the three declared fields and the
value is a Python `int`; every integer value, including values below
`1`, is stored unchanged in the named field, and non-integers and
unknown names fail immediately. -/
theorem c7_setattr_amended (p : ForecasterParameters) (name : String)
    (v : PyVal) :
    ((∃ q, fp_setattr p name v = .ok q) ↔
      ((name = "n_features" ∨ name = "look_back_length" ∨ name = "horizon") ∧
        ∃ z, v = .int z)) ∧
    (∀ z : Int, fp_setattr p "n_features" (.int z) = .ok { p with n_features := z }) ∧
    (∀ z : Int, fp_setattr p "look_back_length" (.int z) = .ok { p with look_back_length := z }) ∧
    (∀ z : Int, fp_setattr p "horizon" (.int z) = .ok { p with horizon := z }) := by
  refine ⟨⟨?_, ?_⟩, fun z => rfl, fun z => rfl, fun z => rfl⟩
  · rintro ⟨q, hq⟩
    unfold fp_setattr at hq
    by_cases h : name = "n_features" ∨ name = "look_back_length" ∨ name = "horizon"
    · rw [if_pos h] at hq
      cases v with
      | int z => exact ⟨h, z, rfl⟩
      | float q2 => simp at hq
      | str s => simp at hq
      | pynone => simp at hq
    · rw [if_neg h] at hq
      simp at hq
  · rintro ⟨h, z, rfl⟩
    unfold fp_setattr
    rw [if_pos h]
    exact ⟨_, rfl⟩

/-- Concrete instance of `c7_setattr_amended`: the negative integer
`-5` is accepted and stored as the horizon. -/
theorem c7_setattr_amended_witness :
    fp_setattr ⟨1, 10, 1⟩ "horizon" (.int (-5)) = .ok ⟨1, 10, -5⟩ :=
  (c7_setattr_amended ⟨1, 10, 1⟩ "horizon" (.int (-5))).2.2.2 (-5)

/-- The flat scalar buffer of a `(B, H, F)` tensor has `B * (H * F)`
entries. -/
theorem flatten_length_of_uniform {H F : Nat} (p : List (List (List Rat)))
    (hp : ∀ w ∈ p, w.length = H ∧ ∀ r ∈ w, r.length = F) :
    ((p.map List.flatten).flatten).length = p.length * (H * F) := by
  induction p with
  | nil => simp
  | cons w rest ih =>
    have hw := hp w (List.mem_cons_self w rest)
    have hrest := ih (fun u hu => hp u (List.mem_cons_of_mem w hu))
    have hwflat : w.flatten.length = H * F := by
      rw [List.length_flatten]
      have hmap : w.map List.length
          = List.replicate (w.map List.length).length F := by
        apply List.eq_replicate_of_mem
        intro b hb
        obtain ⟨r, hr, hrb⟩ := List.mem_map.mp hb
        rw [← hrb]
        exact hw.2 r hr
      rw [hmap, List.sum_replicate, smul_eq_mul, List.length_map, hw.1]
    simp only [List.map_cons, List.flatten_cons, List.length_append, hwflat,
      hrest, List.length_cons]
    ring

/-- numpy reshape to the true tensor's `(B*H, F)` succeeds for every
well-shaped `(B, H, F)` prediction tensor. -/
theorem reshapeRows_of_wellShaped {B H F : Nat} (p : List (List (List Rat)))
    (hp : WellShaped B H F p) :
    ∃ pR, reshapeRows (B * H) F p = some pR := by
  unfold reshapeRows
  rw [flatten_length_of_uniform p hp.2, hp.1, Nat.mul_assoc]
  simp

/-- The quality columns produced by the `features`-mode loop: the loop
computes and appends the four metric columns of each model, in
registration order, up to (and excluding) the first model whose batch
count differs from the true batch count; it returns an error exactly
when some registered model has a mismatched batch count. -/
theorem estimateGo_spec (B H F : Nat) (tR : List (List Rat))
    (preds : List (String × List (List (List Rat))))
    (hp : ∀ p ∈ preds, WellShaped p.2.length H F p.2) :
    ((estimateGo B H F tR preds).1.map Prod.fst
      = ((preds.takeWhile (fun p => p.2.length == B)).map
          (fun p => [p.1 ++ "_MSE", p.1 ++ "_RMSE", p.1 ++ "_MAE",
            p.1 ++ "_R2"])).flatten) ∧
    ((estimateGo B H F tR preds).2 = none ↔
      ∀ p ∈ preds, p.2.length = B) := by
  induction preds with
  | nil => simp [estimateGo]
  | cons hd rest ih =>
    obtain ⟨name, p⟩ := hd
    have ihr := ih (fun u hu => hp u (List.mem_cons_of_mem _ hu))
    by_cases hlen : B = p.length
    · have hws : WellShaped p.length H F p :=
        hp (name, p) (List.mem_cons_self _ _)
      obtain ⟨pR, hpR⟩ : ∃ pR, reshapeRows (B * H) F p = some pR := by
        rw [hlen]
        exact reshapeRows_of_wellShaped p hws
      have hunfold : estimateGo B H F tR ((name, p) :: rest)
          = (modelColumns name F tR pR ++ (estimateGo B H F tR rest).1,
             (estimateGo B H F tR rest).2) := by
        simp [estimateGo, if_pos hlen, hpR]
      have hcond : (p.length == B) = true := by simp [hlen]
      have htw : ((name, p) :: rest).takeWhile
            (fun u => u.2.length == B)
          = (name, p) :: rest.takeWhile (fun u => u.2.length == B) := by
        rw [List.takeWhile_cons]
        simp [hcond]
      constructor
      · rw [hunfold, htw]
        simp only [List.map_append, List.map_cons, List.flatten_cons, ihr.1]
        rfl
      · rw [hunfold]
        rw [show (modelColumns name F tR pR ++ (estimateGo B H F tR rest).1,
            (estimateGo B H F tR rest).2).2 = (estimateGo B H F tR rest).2
          from rfl]
        rw [ihr.2]
        constructor
        · intro hall u hu
          rcases List.mem_cons.mp hu with h1 | h2
          · rw [h1]; exact hlen.symm
          · exact hall u h2
        · intro hall u hu
          exact hall u (List.mem_cons_of_mem _ hu)
    · have hunfold : estimateGo B H F tR ((name, p) :: rest)
          = ([], some ("The length of" ++ name
              ++ " result not equal to true values")) := by
        simp [estimateGo, if_neg hlen]
      have hcond : (p.length == B) = false := by
        rw [beq_eq_false_iff_ne]
        exact fun hc => hlen hc.symm
      constructor
      · rw [hunfold, List.takeWhile_cons]
        simp [hcond]
      · rw [hunfold]
        constructor
        · intro hc; simp at hc
        · intro hall
          exact absurd (hall (name, p) (List.mem_cons_self _ _))
            (fun hc => hlen hc.symm)

/-- C8 fails on the code: with true values of batch count 2, a first
registered model `m1` with matching batch count and a second model
`m2` with batch count 1, `estimate` raises the length-mismatch error,
but only after the four metric columns of `m1` have been computed and
stored — not before any metric is computed for any model, as the claim
requires. -/
theorem c8_estimate_counterexample :
    (estimate_features [[[(1:ℚ)]], [[2]]]
      [("m1", [[[(1:ℚ)]], [[2]]]), ("m2", [[[(1:ℚ)]]])]).2
      = some "The length ofm2 result not equal to true values" ∧
    ((estimate_features [[[(1:ℚ)]], [[2]]]
      [("m1", [[[(1:ℚ)]], [[2]]]), ("m2", [[[(1:ℚ)]]])]).1.map Prod.fst)
      = ["m1_MSE", "m1_RMSE", "m1_MAE", "m1_R2"] :=
  ⟨rfl, rfl⟩

/-- C8 amended: in `features` mode `estimate` visits the registered
models in registration order and checks each model's batch count
immediately before computing that model's metrics; it raises the
length-mismatch error exactly when some registered prediction's batch
count differs from the true batch count, and when it does, the four
metric columns of every model registered before the first offender
have already been computed, while no column of the offender or of any
later model is.  When all batch counts agree, no error is raised and
all metrics are computed for every model. -/
theorem c8_estimate_amended (B H F : Nat) (t : List (List (List Rat)))
    (preds : List (String × List (List (List Rat))))
    (hB : 1 ≤ B) (hH : 1 ≤ H) (ht : WellShaped B H F t)
    (hp : ∀ p ∈ preds, WellShaped p.2.length H F p.2) :
    ((estimate_features t preds).1.map Prod.fst
      = ((preds.takeWhile (fun p => p.2.length == B)).map
          (fun p => [p.1 ++ "_MSE", p.1 ++ "_RMSE", p.1 ++ "_MAE",
            p.1 ++ "_R2"])).flatten) ∧
    ((estimate_features t preds).2 = none ↔
      ∀ p ∈ preds, p.2.length = B) := by
  obtain ⟨hB', hshape⟩ := ht
  have htne : t ≠ [] := by intro hc; rw [hc] at hB'; simp at hB'; omega
  have hhead : t.headI ∈ t := by
    cases t with
    | nil => exact absurd rfl htne
    | cons w rest => exact List.mem_cons_self w rest
  have hH' : t.headI.length = H := (hshape _ hhead).1
  have hne2 : t.headI ≠ [] := by
    intro hc
    rw [hc] at hH'
    simp at hH'
    omega
  have hhead2 : t.headI.headI ∈ t.headI := by
    cases hh : t.headI with
    | nil => exact absurd hh hne2
    | cons r rest => exact List.mem_cons_self r rest
  have hF' : t.headI.headI.length = F := (hshape _ hhead).2 _ hhead2
  unfold estimate_features
  rw [hH', hF', hB']
  exact estimateGo_spec B H F _ preds hp

/-- Concrete instance of `c8_estimate_amended`: a single model with
matching batch count gets its four columns computed and no error. -/
theorem c8_estimate_amended_witness :
    ((estimate_features [[[(1:ℚ)]], [[2]]] [("m", [[[(3:ℚ)]], [[4]]])]).1.map
      Prod.fst = ["m_MSE", "m_RMSE", "m_MAE", "m_R2"]) ∧
    ((estimate_features [[[(1:ℚ)]], [[2]]] [("m", [[[(3:ℚ)]], [[4]]])]).2
      = none) := by
  have h := c8_estimate_amended 2 1 1 [[[(1:ℚ)]], [[2]]]
    [("m", [[[(3:ℚ)]], [[4]]])] (by norm_num) (by norm_num)
    (by decide) (by decide)
  exact ⟨h.1.trans (by rfl), h.2.mpr (by decide)⟩

/-- C9 fails on the code: a generator over `[1,2,3,4]` with `L = 2`,
`H = 1` has `N = 2` windows, so the claim accepts every
`window_id ∈ [-2, 1]`; but `_get_x` checks membership in
`range(-(N-1), N-1) = [-1, 0]` and rejects both the last positive
index `1` and the most negative valid index `-2` with the
index-out-of-range error. -/
theorem c9_window_id_counterexample :
    temporality 2 1 [(1:ℚ), 2, 3, 4] = .ok ([[1,2],[2,3]], [[3],[4]]) ∧
    get_window [[(1:ℚ),2],[2,3]] 1 = .error "window_id out of range" ∧
    get_window [[(1:ℚ),2],[2,3]] (-2) = .error "window_id out of range" :=
  ⟨rfl, rfl, rfl⟩

/-- C9 amended: `get_data`/`get_targets` with a `window_id` succeed
exactly when `-(N-1) ≤ window_id ≤ N-2` (not the full valid index
range `-N .. N-1` of the claim); within that range the selected window
is returned with a leading size-1 axis, using Python index semantics
(a negative index counts from the end); everything outside that range
fails with the index-out-of-range error. -/
theorem c9_window_id_amended (x : List (List ℚ)) (wid : Int) :
    ((∃ w, get_window x wid = .ok w) ↔
      (-((x.length : Int) - 1) ≤ wid ∧ wid ≤ (x.length : Int) - 2)) ∧
    (-((x.length : Int) - 1) ≤ wid → wid ≤ (x.length : Int) - 2 →
      (0 ≤ wid → get_window x wid = .ok [x.getD wid.toNat []]) ∧
      (wid < 0 →
        get_window x wid = .ok [x.getD ((x.length : Int) + wid).toNat []])) := by
  constructor
  · constructor
    · rintro ⟨w, hw⟩
      unfold get_window at hw
      split_ifs at hw with h
      exact ⟨h.1, by omega⟩
    · rintro ⟨hlo, hhi⟩
      exact ⟨_, by unfold get_window; rw [if_pos ⟨hlo, by omega⟩]⟩
  · intro hlo hhi
    constructor
    · intro hpos
      unfold get_window pyGet
      rw [if_pos ⟨hlo, by omega⟩, if_neg (by omega)]
    · intro hneg
      unfold get_window pyGet
      rw [if_pos ⟨hlo, by omega⟩, if_pos hneg]

/-- Concrete instance of `c9_window_id_amended`: index `0` and the
negative index `-1` of a two-window generator are both accepted and
return the expected single window with a leading size-1 axis. -/
theorem c9_window_id_amended_witness :
    get_window [[(1:ℚ),2],[2,3]] 0 = .ok [[1,2]] ∧
    get_window [[(1:ℚ),2],[2,3]] (-1) = .ok [[2,3]] :=
  ⟨((c9_window_id_amended [[(1:ℚ),2],[2,3]] 0).2 (by norm_num)
      (by norm_num)).1 (by norm_num),
   ((c9_window_id_amended [[(1:ℚ),2],[2,3]] (-1)).2 (by norm_num)
      (by norm_num)).2 (by norm_num)⟩

/-- C10: a `sample` endpoint equal to `0` is tested for truthiness,
not compared with `None`, so `sample = (s, 0)` behaves exactly like
`sample = (s, None)`: the end defaults to `N` and the call returns the
windows `s .. N-1` — a non-empty selection whenever `s < N`.  A start
endpoint `0` likewise behaves exactly like a missing start. -/
theorem c10_sample_truthiness (x : List (List ℚ)) (s : Nat)
    (hs : s < x.length) :
    get_sample x (some (s : Int)) (some 0) = x.drop s ∧
    get_sample x (some (s : Int)) none = x.drop s ∧
    get_sample x (some (s : Int)) (some 0) ≠ [] ∧
    (∀ e : Option Int, get_sample x (some 0) e = get_sample x none e) := by
  have hst : truthyD (some (s : Int)) 0 = (s : Int) := by
    simp only [truthyD]
    split_ifs with h
    · rfl
    · omega
  have hnorm : pyNormIdx x.length (s : Int) = s := by
    unfold pyNormIdx
    rw [if_neg (by omega)]
    simp
    omega
  have hend : pyNormIdx x.length (x.length : Int) = x.length := by
    unfold pyNormIdx
    rw [if_neg (by omega)]
    simp
  have hzero : truthyD (some (0 : Int)) (x.length : Int)
      = (x.length : Int) := by
    simp [truthyD]
  have hnone : truthyD none (x.length : Int) = (x.length : Int) := rfl
  have hmain : get_sample x (some (s : Int)) (some 0) = x.drop s := by
    unfold get_sample
    rw [hst, hzero]
    unfold pySlice
    rw [hnorm, hend, List.take_length]
  have hmain2 : get_sample x (some (s : Int)) none = x.drop s := by
    unfold get_sample
    rw [hst, hnone]
    unfold pySlice
    rw [hnorm, hend, List.take_length]
  refine ⟨hmain, hmain2, ?_, fun e => rfl⟩
  rw [hmain]
  intro hc
  rw [List.drop_eq_nil_iff] at hc
  omega

/-- Concrete instance of `c10_sample_truthiness`: `sample = (1, 0)` on
three windows returns windows `1` and `2`, the same as
`sample = (1, None)`. -/
theorem c10_sample_truthiness_witness :
    get_sample [[(1:ℚ)],[2],[3]] (some 1) (some 0) = [[2],[3]] ∧
    get_sample [[(1:ℚ)],[2],[3]] (some 1) none = [[2],[3]] := by
  have h := c10_sample_truthiness [[(1:ℚ)],[2],[3]] 1 (by norm_num)
  exact ⟨h.1.trans (by rfl), h.2.1.trans (by rfl)⟩

end Claims
